import Mathlib

/-!
Shallow embedding of the oz-calendar note creation code
(src/util/noteCreation.ts and src/noteHandlers.ts).

The Obsidian host is modelled by an explicit vault state (the set of file
and folder paths that exist) together with a trace of host-API calls
emitted by each operation.  External behaviour that the code only
triggers (the Templater engine, the editor) is recorded in the trace.
-/

namespace OZCalendar

/-- The vault: the paths of existing files and of existing folders.
A lookup with getAbstractFileByPath succeeds when the path names either. -/
structure Vault where
  files : List String
  folders : List String
deriving DecidableEq, Repr

/-- Model of vault.getAbstractFileByPath as a Boolean query: the path is
truthy exactly when some file or folder exists at it. -/
def Vault.getAbstractFileByPath (v : Vault) (p : String) : Bool :=
  v.files.contains p || v.folders.contains p

/-- The Templater plugin object; hasTemplater models the truthiness of
its templater field. -/
structure TemplaterPlugin where
  hasTemplater : Bool
deriving DecidableEq, Repr

/-- The host application: whether plugins.plugins of the app has an entry
under the templater-obsidian key. -/
structure App where
  templaterObsidian : Option TemplaterPlugin
deriving Repr

/-- One host-API call made by the note creation code. -/
inductive Event where
  /-- A vault.getAbstractFileByPath lookup. -/
  | getFileByPath (path : String)
  /-- app.workspace.openLinkText(path, empty, false). -/
  | openLinkText (path : String)
  /-- The read of app.plugins.plugins for the templater-obsidian entry. -/
  | pluginLookup
  /-- vault.createFolder(path). -/
  | createFolder (path : String)
  /-- vault.create(path, content). -/
  | vaultCreate (path : String) (content : String)
  /-- templater.create_new_note_from_template(tpl, dir, name, openAfter);
  the engine itself creates the file and, when openAfter, opens it. -/
  | createFromTemplate (tpl : String) (dir : String) (name : String) (openAfter : Bool)
  /-- The awaited setTimeout pause of the given number of milliseconds. -/
  | delayMs (ms : Nat)
deriving DecidableEq, Repr

namespace Event

/-- Whether the event creates the target note: vault.create or a template
instantiation. -/
def isCreation : Event → Bool
  | .vaultCreate _ _ => true
  | .createFromTemplate _ _ _ _ => true
  | _ => false

/-- Whether the event is a vault.create call. -/
def isVaultCreate : Event → Bool
  | .vaultCreate _ _ => true
  | _ => false

/-- Whether the event is a template instantiation. -/
def isTemplateInstantiate : Event → Bool
  | .createFromTemplate _ _ _ _ => true
  | _ => false

/-- Whether the event is an openLinkText call. -/
def isOpenLink : Event → Bool
  | .openLinkText _ => true
  | _ => false

/-- Whether the event is a createFolder call. -/
def isCreateFolder : Event → Bool
  | .createFolder _ => true
  | _ => false

/-- Whether the event is an existence lookup or a folder creation; the
events the folder phase is made of. -/
def isCheckOrFolder : Event → Bool
  | .getFileByPath _ => true
  | .createFolder _ => true
  | _ => false

/-- The path of a createFolder event, if the event is one. -/
def createFolderPath : Event → Option String
  | .createFolder p => some p
  | _ => none

end Event

/-- Splitting a list of characters at every slash, keeping empty pieces,
as the JS split method does for a one-character separator. -/
def splitSlashChars : List Char → List (List Char)
  | [] => [[]]
  | c :: cs =>
    let r := splitSlashChars cs
    if c = '/' then [] :: r
    else
      match r with
      | [] => [[c]]
      | g :: gs => (c :: g) :: gs

/-- Model of the JS split of a string on the slash character. -/
def splitSlash (s : String) : List String :=
  (splitSlashChars s.data).map fun l => String.mk l

/-- Model of fileName.substring(fileName.lastIndexOf(slash) + 1): the part
after the last slash, or the whole string when there is none. -/
def afterLastSlash (s : String) : String :=
  (splitSlash s).getLastD s

/-- Model of filePath.substring(0, filePath.lastIndexOf(slash)): the part
before the last slash, or the empty string when there is none. -/
def dirOf (s : String) : String :=
  let parts := splitSlash s
  if parts.length ≤ 1 then "" else String.intercalate "/" parts.dropLast

/-- Configuration for creating a periodic note. -/
structure NoteCreationConfig where
  fileName : String
  folder : String
  templatePath : String
deriving DecidableEq, Repr

/-- openExistingNote: look the path up; when something exists there, open
it and report true, otherwise report false. -/
def openExistingNote (v : Vault) (filePath : String) : Bool × List Event :=
  if v.getAbstractFileByPath filePath then
    (true, [.getFileByPath filePath, .openLinkText filePath])
  else
    (false, [.getFileByPath filePath])

/-- getTemplaterPlugin: the templater-obsidian entry of the plugin table,
or null. -/
def getTemplaterPlugin (app : App) : Option TemplaterPlugin :=
  app.templaterObsidian

/-- Truthiness of templaterPlugin?.templater. -/
def templaterAvailable : Option TemplaterPlugin → Bool
  | some p => p.hasTemplater
  | none => false

/-- getTemplateFile: for a non-empty templatePath, look templatePath.md up
in the vault and return it when it is a TFile (here: listed among files),
together with the lookup event. -/
def getTemplateFile (v : Vault) (templatePath : String) : Option String × List Event :=
  if templatePath = "" then (none, [])
  else
    let p := templatePath ++ ".md"
    ((if v.files.contains p then some p else none), [.getFileByPath p])

/-- The loop body of ensureFoldersExist: walk the parts, extending the
current path, checking each cumulative path and creating the folder when
the check fails. -/
def ensureLoop (v : Vault) (cur : String) : List String → Vault × List Event
  | [] => (v, [])
  | part :: rest =>
    let cur2 := if cur = "" then part else cur ++ "/" ++ part
    if v.getAbstractFileByPath cur2 then
      let r := ensureLoop v cur2 rest
      (r.1, .getFileByPath cur2 :: r.2)
    else
      let r := ensureLoop { v with folders := v.folders ++ [cur2] } cur2 rest
      (r.1, .getFileByPath cur2 :: .createFolder cur2 :: r.2)

/-- ensureFoldersExist: nothing on the empty string, otherwise the loop
over the slash-separated parts starting from the empty current path. -/
def ensureFoldersExist (v : Vault) (fullDir : String) : Vault × List Event :=
  if fullDir = "" then (v, [])
  else ensureLoop v "" (splitSlash fullDir)

/-- createNoteWithTemplate: with a template file and a truthy templater,
instantiate the template (the engine creates the file and opens it, the
openAfter flag being true) and pause 300 ms; otherwise create an empty
file at the path, pause 300 ms and open it. -/
def createNoteWithTemplate (v : Vault) (filePath fullDir fileName : String)
    (templaterPlugin : Option TemplaterPlugin) (templateFile : Option String) :
    Vault × List Event :=
  match templateFile, templaterAvailable templaterPlugin with
  | some tf, true =>
      (v, [.createFromTemplate tf fullDir (afterLastSlash fileName) true, .delayMs 300])
  | _, _ =>
      ({ v with files := v.files ++ [filePath] },
       [.vaultCreate filePath "", .delayMs 300, .openLinkText filePath])

/-- The file path openOrCreateNote builds from the configuration. -/
def resolveFilePath (config : NoteCreationConfig) : String :=
  if config.folder = "" then config.fileName ++ ".md"
  else config.folder ++ "/" ++ config.fileName ++ ".md"

/-- openOrCreateNote: resolve the path; open the note when it exists;
otherwise look the plugin and the template up, ensure the folders exist
and create the note. -/
def openOrCreateNote (app : App) (v : Vault) (config : NoteCreationConfig) :
    Vault × List Event :=
  let filePath := resolveFilePath config
  let ex := openExistingNote v filePath
  if ex.1 then (v, ex.2)
  else
    let templaterPlugin := getTemplaterPlugin app
    let tpl := getTemplateFile v config.templatePath
    let fullDir := dirOf filePath
    let ef := ensureFoldersExist v fullDir
    let cr := createNoteWithTemplate ef.1 filePath fullDir config.fileName templaterPlugin tpl.1
    (cr.1, ex.2 ++ [.pluginLookup] ++ tpl.2 ++ ef.2 ++ cr.2)

/-- A dayjs value, reduced to its calendar-date part: the year, the
zero-based month index and the one-based day of month. -/
structure DayjsDate where
  year : Int
  month : Nat
  day : Nat
deriving DecidableEq, Repr

/-- Whether the year is a leap year of the Gregorian calendar. -/
def isLeapYear (y : Int) : Bool :=
  y % 4 = 0 && (y % 100 ≠ 0 || y % 400 = 0)

/-- The number of days of the zero-based month in the given year. -/
def daysInMonth (y : Int) (m : Nat) : Nat :=
  if m = 1 then (if isLeapYear y then 29 else 28)
  else if m = 3 ∨ m = 5 ∨ m = 8 ∨ m = 10 then 30
  else 31

/-- The dayjs month setter for an in-range zero-based month index: the
month field is set and, as with the underlying JS Date, a day of month
beyond the end of the target month bubbles into the following month. -/
def DayjsDate.setMonth (d : DayjsDate) (m : Nat) : DayjsDate :=
  if d.day ≤ daysInMonth d.year m then ⟨d.year, m, d.day⟩
  else ⟨(if m = 11 then d.year + 1 else d.year), (m + 1) % 12, d.day - daysInMonth d.year m⟩

/-- The dayjs startOf month operation on the date part: the day becomes 1. -/
def DayjsDate.startOfMonth (d : DayjsDate) : DayjsDate :=
  { d with day := 1 }

/-- parseDate of noteHandlers: try the formats in order with the dayjs
parse, given here as the oracle dayjsParse, and return the first valid
result, or null. -/
def parseDate (dayjsParse : String → String → Option DayjsDate) :
    String → List String → Option DayjsDate
  | _, [] => none
  | text, f :: fs =>
    match dayjsParse text f with
    | some d => some d
    | none => parseDate dayjsParse text fs

/-- The plugin settings the handlers read. -/
structure Settings where
  weeklyNoteFormat : String
  weeklyNoteFolder : String
  weeklyNoteTemplate : String
  monthlyNoteFormat : String
  monthlyNoteFolder : String
  monthlyNoteTemplate : String
  quarterlyNoteFormat : String
  quarterlyNoteFolder : String
  quarterlyNoteTemplate : String
deriving DecidableEq, Repr

/-- The formats handleMonthLabelClick tries. -/
def monthLabelFormats : List String := ["D MMM YYYY", "DD MMM YYYY", "MMM YYYY"]

/-- The formats handleMonthClick and handleQuarterClick try. -/
def navLabelFormats : List String := ["MMM YYYY", "MMMM YYYY"]

/-- A day tile of the month view: the aria-label of its abbr element when
that element is present. -/
structure DayTile where
  abbr : Option String
deriving DecidableEq, Repr

/-- The forEach loop of handleWeekNumberClick over the week number tiles:
the index of the last tile equal to the delegate target, or none when no
tile matches (weekIndex stays minus one). -/
def findClickedIndex (tiles : List Nat) (target : Nat) : Option Nat :=
  tiles.enum.foldl (fun acc it => if it.2 = target then some it.1 else acc) none

/-- handleWeekNumberClick, from the DOM data it reads: the week number
tiles, the clicked target and the day tiles.  Returns the configuration
passed to openOrCreateNote, or none when the handler returns early. -/
def handleWeekNumberClick (dayjsParse : String → String → Option DayjsDate)
    (dayjsFormat : DayjsDate → String → String) (s : Settings)
    (weekNumberTiles : List Nat) (delegateTarget : Nat) (dayTiles : List DayTile) :
    Option NoteCreationConfig :=
  match findClickedIndex weekNumberTiles delegateTarget with
  | none => none
  | some weekIndex =>
    match dayTiles.get? (weekIndex * 7) with
    | none => none
    | some firstDayOfWeek =>
      match firstDayOfWeek.abbr with
      | none => none
      | some dateText =>
        match dayjsParse dateText "MMMM D, YYYY" with
        | none => none
        | some weekDate =>
          some ⟨dayjsFormat weekDate s.weeklyNoteFormat,
                s.weeklyNoteFolder, s.weeklyNoteTemplate⟩

/-- handleMonthLabelClick, from the textContent of the delegate target:
the configuration passed to openOrCreateNote, or none on an early return
(no text, empty text, or no format parses it). -/
def handleMonthLabelClick (dayjsParse : String → String → Option DayjsDate)
    (dayjsFormat : DayjsDate → String → String) (s : Settings)
    (labelText : Option String) : Option NoteCreationConfig :=
  match labelText with
  | none => none
  | some t =>
    if t = "" then none
    else
      match parseDate dayjsParse t monthLabelFormats with
      | none => none
      | some monthDate =>
        some ⟨dayjsFormat monthDate.startOfMonth s.monthlyNoteFormat,
              s.monthlyNoteFolder, s.monthlyNoteTemplate⟩

/-- The quarter start month of handleQuarterClick: quarter is the ceiling
of (month + 1) / 3, and the start month is (quarter - 1) * 3. -/
def quarterStartMonth (m : Nat) : Nat :=
  ((m + 1 + 2) / 3 - 1) * 3

/-- handleQuarterClick, from the textContent of the month-year span: the
configuration passed to openOrCreateNote, or none on an early return. -/
def handleQuarterClick (dayjsParse : String → String → Option DayjsDate)
    (dayjsFormat : DayjsDate → String → String) (s : Settings)
    (labelText : Option String) : Option NoteCreationConfig :=
  match labelText with
  | none => none
  | some t =>
    if t = "" then none
    else
      match parseDate dayjsParse t navLabelFormats with
      | none => none
      | some monthDate =>
        let quarterDate := (monthDate.setMonth (quarterStartMonth monthDate.month)).startOfMonth
        some ⟨dayjsFormat quarterDate s.quarterlyNoteFormat,
              s.quarterlyNoteFolder, s.quarterlyNoteTemplate⟩

/-! Helper lemmas about the embedding. -/

/-- Adding one folder to the vault extends the lookup by equality with
the added path. -/
theorem Vault.get_addFolder (v : Vault) (f q : String) :
    ({ v with folders := v.folders ++ [f] } : Vault).getAbstractFileByPath q
      = (v.getAbstractFileByPath q || (q == f)) := by
  simp [Vault.getAbstractFileByPath, List.contains]
  cases h : q == f
  · have hne : q ≠ f := beq_eq_false_iff_ne.mp h
    simp [hne]
  · have he : q = f := beq_iff_eq.mp h
    simp [he]

/-- The successive cumulative paths the ensureFoldersExist loop builds
when extending a non-empty current path with the given parts. -/
def cumPaths : String → List String → List String
  | _, [] => []
  | cur, part :: rest => (cur ++ "/" ++ part) :: cumPaths (cur ++ "/" ++ part) rest

/-- Every cumulative path is strictly longer than the path it starts
from. -/
theorem cumPaths_length_lt :
    ∀ (rest : List String) (cur p : String), p ∈ cumPaths cur rest → cur.length < p.length := by
  intro rest
  induction rest with
  | nil => intro cur p hp; simp [cumPaths] at hp
  | cons part rest ih =>
    intro cur p hp
    have hlen : cur.length < (cur ++ "/" ++ part).length := by
      rw [String.length_append, String.length_append]
      have h1 : ("/" : String).length = 1 := rfl
      omega
    simp only [cumPaths, List.mem_cons] at hp
    rcases hp with rfl | hp
    · exact hlen
    · exact lt_trans hlen (ih _ _ hp)

/-- A string of positive length is not the empty string. -/
theorem ne_empty_of_append (cur part : String) : cur ++ "/" ++ part ≠ "" := by
  intro h
  have h2 := congrArg String.length h
  rw [String.length_append, String.length_append] at h2
  have h1 : ("/" : String).length = 1 := rfl
  have h0 : ("" : String).length = 0 := rfl
  omega

/-- The ensureFoldersExist loop, started at a non-empty current path:
the createFolder calls are exactly the cumulative paths absent from the
starting vault, in order; every cumulative path exists afterwards; and
every path existing before still exists afterwards. -/
theorem ensureLoop_spec :
    ∀ (rest : List String) (v : Vault) (cur : String), cur ≠ "" →
    ((ensureLoop v cur rest).2.filterMap Event.createFolderPath
        = (cumPaths cur rest).filter (fun p => !v.getAbstractFileByPath p))
    ∧ (∀ p ∈ cumPaths cur rest, ((ensureLoop v cur rest).1).getAbstractFileByPath p = true)
    ∧ (∀ q, v.getAbstractFileByPath q = true →
        ((ensureLoop v cur rest).1).getAbstractFileByPath q = true) := by
  intro rest
  induction rest with
  | nil =>
    intro v cur hcur
    refine ⟨rfl, ?_, ?_⟩ <;> simp [ensureLoop, cumPaths]
  | cons part rest ih =>
    intro v cur hcur
    have hne : cur ++ "/" ++ part ≠ "" := ne_empty_of_append cur part
    simp only [ensureLoop, if_neg hcur]
    by_cases hchk : v.getAbstractFileByPath (cur ++ "/" ++ part) = true
    · obtain ⟨iha, ihb, ihc⟩ := ih v (cur ++ "/" ++ part) hne
      simp only [hchk, if_true]
      refine ⟨?_, ?_, ?_⟩
      · simp only [List.filterMap_cons, Event.createFolderPath, iha]
        simp [cumPaths, hchk]
      · intro p hp
        simp only [cumPaths, List.mem_cons] at hp
        rcases hp with rfl | hp
        · exact ihc _ hchk
        · exact ihb _ hp
      · exact ihc
    · rw [Bool.not_eq_true] at hchk
      obtain ⟨iha, ihb, ihc⟩ :=
        ih { v with folders := v.folders ++ [cur ++ "/" ++ part] } (cur ++ "/" ++ part) hne
      simp only [hchk, Bool.false_eq_true, if_false]
      refine ⟨?_, ?_, ?_⟩
      · simp only [List.filterMap_cons, Event.createFolderPath, iha]
        have hfc : ((cumPaths (cur ++ "/" ++ part) rest).filter
              (fun p => !({ v with folders := v.folders ++ [cur ++ "/" ++ part] } :
                Vault).getAbstractFileByPath p))
            = ((cumPaths (cur ++ "/" ++ part) rest).filter
                (fun p => !v.getAbstractFileByPath p)) := by
          apply List.filter_congr
          intro p hp
          have hlt := cumPaths_length_lt rest (cur ++ "/" ++ part) p hp
          have hpne : p ≠ cur ++ "/" ++ part := by
            intro h; rw [h] at hlt; omega
          rw [Vault.get_addFolder, beq_eq_false_iff_ne.mpr hpne, Bool.or_false]
        rw [hfc]
        simp [cumPaths, hchk]
      · intro p hp
        simp only [cumPaths, List.mem_cons] at hp
        rcases hp with rfl | hp
        · apply ihc
          rw [Vault.get_addFolder, beq_self_eq_true, Bool.or_true]
        · exact ihb _ hp
      · intro q hq
        apply ihc
        rw [Vault.get_addFolder, hq, Bool.true_or]

/-- The first loop step from the empty current path, for a non-empty
first part: the same description, the cumulative paths now being the
first part followed by its extensions. -/
theorem ensureLoop_from_empty (v : Vault) (first : String) (rest : List String)
    (h0 : first ≠ "") :
    ((ensureLoop v "" (first :: rest)).2.filterMap Event.createFolderPath
        = (first :: cumPaths first rest).filter (fun p => !v.getAbstractFileByPath p))
    ∧ (∀ p ∈ first :: cumPaths first rest,
        ((ensureLoop v "" (first :: rest)).1).getAbstractFileByPath p = true) := by
  simp only [ensureLoop, reduceIte]
  by_cases hchk : v.getAbstractFileByPath first = true
  · obtain ⟨iha, ihb, ihc⟩ := ensureLoop_spec rest v first h0
    simp only [hchk, if_true]
    refine ⟨?_, ?_⟩
    · simp only [List.filterMap_cons, Event.createFolderPath, iha]
      simp [hchk]
    · intro p hp
      simp only [List.mem_cons] at hp
      rcases hp with rfl | hp
      · exact ihc _ hchk
      · exact ihb _ hp
  · rw [Bool.not_eq_true] at hchk
    obtain ⟨iha, ihb, ihc⟩ :=
      ensureLoop_spec rest { v with folders := v.folders ++ [first] } first h0
    simp only [hchk, Bool.false_eq_true, if_false]
    refine ⟨?_, ?_⟩
    · simp only [List.filterMap_cons, Event.createFolderPath, iha]
      have hfc : ((cumPaths first rest).filter
            (fun p => !({ v with folders := v.folders ++ [first] } :
              Vault).getAbstractFileByPath p))
          = ((cumPaths first rest).filter (fun p => !v.getAbstractFileByPath p)) := by
        apply List.filter_congr
        intro p hp
        have hlt := cumPaths_length_lt rest first p hp
        have hpne : p ≠ first := by
          intro h; rw [h] at hlt; omega
        rw [Vault.get_addFolder, beq_eq_false_iff_ne.mpr hpne, Bool.or_false]
      rw [hfc]
      simp [hchk]
    · intro p hp
      simp only [List.mem_cons] at hp
      rcases hp with rfl | hp
      · apply ihc
        rw [Vault.get_addFolder, beq_self_eq_true, Bool.or_true]
      · exact ihb _ hp

/-- Every event of the ensureFoldersExist loop is a lookup or a folder
creation. -/
theorem ensureLoop_events :
    ∀ (rest : List String) (v : Vault) (cur : String),
    ∀ e ∈ (ensureLoop v cur rest).2, e.isCheckOrFolder = true := by
  intro rest
  induction rest with
  | nil => intro v cur e he; simp [ensureLoop] at he
  | cons part rest ih =>
    intro v cur e he
    simp only [ensureLoop] at he
    by_cases hchk : v.getAbstractFileByPath (if cur = "" then part else cur ++ "/" ++ part) = true
    · rw [if_pos hchk] at he
      simp only [List.mem_cons] at he
      rcases he with rfl | he
      · rfl
      · exact ih _ _ e he
    · rw [if_neg hchk] at he
      simp only [List.mem_cons] at he
      rcases he with rfl | rfl | he
      · rfl
      · rfl
      · exact ih _ _ e he

/-- Every event of ensureFoldersExist is a lookup or a folder creation. -/
theorem ensureFoldersExist_events (v : Vault) (fullDir : String) :
    ∀ e ∈ (ensureFoldersExist v fullDir).2, e.isCheckOrFolder = true := by
  intro e he
  unfold ensureFoldersExist at he
  by_cases h : fullDir = ""
  · rw [if_pos h] at he; simp at he
  · rw [if_neg h] at he; exact ensureLoop_events _ _ _ e he

/-- Every event of getTemplateFile is a lookup. -/
theorem getTemplateFile_events (v : Vault) (tp : String) :
    ∀ e ∈ (getTemplateFile v tp).2, e.isCheckOrFolder = true := by
  intro e he
  unfold getTemplateFile at he
  by_cases h : tp = ""
  · rw [if_pos h] at he; simp at he
  · rw [if_neg h] at he
    simp only [List.mem_singleton] at he
    subst he; rfl

/-- A lookup or folder-creation event is neither a note creation, an
editor open, a vault.create nor a template instantiation. -/
theorem isCheckOrFolder_not (e : Event) (h : e.isCheckOrFolder = true) :
    e.isCreation = false ∧ e.isOpenLink = false
    ∧ e.isVaultCreate = false ∧ e.isTemplateInstantiate = false := by
  cases e <;> simp_all [Event.isCheckOrFolder, Event.isCreation, Event.isOpenLink,
    Event.isVaultCreate, Event.isTemplateInstantiate]

/-- The existing-note branch of openOrCreateNote: the vault is unchanged
and the trace is the lookup followed by the open. -/
theorem openOrCreateNote_found (app : App) (v : Vault) (cfg : NoteCreationConfig)
    (h : v.getAbstractFileByPath (resolveFilePath cfg) = true) :
    openOrCreateNote app v cfg
      = (v, [Event.getFileByPath (resolveFilePath cfg),
             Event.openLinkText (resolveFilePath cfg)]) := by
  simp [openOrCreateNote, openExistingNote, h]

/-- The absent-note branch of openOrCreateNote: the lookup, the plugin
lookup, the template lookup, the folder phase and the creation phase. -/
theorem openOrCreateNote_absent (app : App) (v : Vault) (cfg : NoteCreationConfig)
    (h : v.getAbstractFileByPath (resolveFilePath cfg) = false) :
    openOrCreateNote app v cfg
      = ((createNoteWithTemplate (ensureFoldersExist v (dirOf (resolveFilePath cfg))).1
            (resolveFilePath cfg) (dirOf (resolveFilePath cfg)) cfg.fileName
            (getTemplaterPlugin app) (getTemplateFile v cfg.templatePath).1).1,
         Event.getFileByPath (resolveFilePath cfg) :: Event.pluginLookup
           :: ((getTemplateFile v cfg.templatePath).2
               ++ (ensureFoldersExist v (dirOf (resolveFilePath cfg))).2
               ++ (createNoteWithTemplate (ensureFoldersExist v (dirOf (resolveFilePath cfg))).1
                     (resolveFilePath cfg) (dirOf (resolveFilePath cfg)) cfg.fileName
                     (getTemplaterPlugin app) (getTemplateFile v cfg.templatePath).1).2)) := by
  simp [openOrCreateNote, openExistingNote, h]

/-- The template branch of createNoteWithTemplate. -/
theorem createNote_template (v : Vault) (fp dir name : String)
    (tp : Option TemplaterPlugin) (tf : Option String) (t : String)
    (htf : tf = some t) (ht : templaterAvailable tp = true) :
    createNoteWithTemplate v fp dir name tp tf
      = (v, [Event.createFromTemplate t dir (afterLastSlash name) true,
             Event.delayMs 300]) := by
  subst htf
  simp [createNoteWithTemplate, ht]

/-- The empty-file branch of createNoteWithTemplate. -/
theorem createNote_empty (v : Vault) (fp dir name : String)
    (tp : Option TemplaterPlugin) (tf : Option String)
    (h : tf = none ∨ templaterAvailable tp = false) :
    createNoteWithTemplate v fp dir name tp tf
      = ({ v with files := v.files ++ [fp] },
         [Event.vaultCreate fp "", Event.delayMs 300, Event.openLinkText fp]) := by
  rcases h with rfl | h
  · cases htp : templaterAvailable tp <;> simp [createNoteWithTemplate, htp]
  · cases tf <;> simp [createNoteWithTemplate, h]

/-- Dichotomy of createNoteWithTemplate over its two branches. -/
theorem createNote_cases (v : Vault) (fp dir name : String)
    (tp : Option TemplaterPlugin) (tf : Option String) :
    (∃ t, tf = some t ∧ templaterAvailable tp = true
      ∧ createNoteWithTemplate v fp dir name tp tf
          = (v, [Event.createFromTemplate t dir (afterLastSlash name) true,
                 Event.delayMs 300]))
    ∨ ((tf = none ∨ templaterAvailable tp = false)
      ∧ createNoteWithTemplate v fp dir name tp tf
          = ({ v with files := v.files ++ [fp] },
             [Event.vaultCreate fp "", Event.delayMs 300, Event.openLinkText fp])) := by
  cases tf with
  | none => exact Or.inr ⟨Or.inl rfl, createNote_empty v fp dir name tp none (Or.inl rfl)⟩
  | some t =>
    cases hta : templaterAvailable tp with
    | true => exact Or.inl ⟨t, rfl, rfl, createNote_template v fp dir name tp (some t) t rfl hta⟩
    | false => exact Or.inr ⟨Or.inr rfl, createNote_empty v fp dir name tp (some t) (Or.inr hta)⟩

/-- In the absent-note branch, every note-creation event of the trace
belongs to the creation phase. -/
theorem absent_creation_events (app : App) (v : Vault) (cfg : NoteCreationConfig)
    (h : v.getAbstractFileByPath (resolveFilePath cfg) = false)
    (e : Event) (he : e ∈ (openOrCreateNote app v cfg).2) (hc : e.isCreation = true) :
    e ∈ (createNoteWithTemplate (ensureFoldersExist v (dirOf (resolveFilePath cfg))).1
          (resolveFilePath cfg) (dirOf (resolveFilePath cfg)) cfg.fileName
          (getTemplaterPlugin app) (getTemplateFile v cfg.templatePath).1).2 := by
  rw [openOrCreateNote_absent app v cfg h] at he
  simp only [List.mem_cons, List.mem_append] at he
  rcases he with rfl | rfl | (he | he) | he
  · exact Bool.noConfusion hc
  · exact Bool.noConfusion hc
  · have := (isCheckOrFolder_not e (getTemplateFile_events v cfg.templatePath e he)).1
    rw [this] at hc; exact Bool.noConfusion hc
  · have := (isCheckOrFolder_not e (ensureFoldersExist_events v _ e he)).1
    rw [this] at hc; exact Bool.noConfusion hc
  · exact he

/-- In the absent-note branch, the number of note-creation events of the
trace equals that of the creation phase. -/
theorem absent_countP_creation (app : App) (v : Vault) (cfg : NoteCreationConfig)
    (h : v.getAbstractFileByPath (resolveFilePath cfg) = false) :
    (openOrCreateNote app v cfg).2.countP Event.isCreation
      = ((createNoteWithTemplate (ensureFoldersExist v (dirOf (resolveFilePath cfg))).1
            (resolveFilePath cfg) (dirOf (resolveFilePath cfg)) cfg.fileName
            (getTemplaterPlugin app) (getTemplateFile v cfg.templatePath).1).2).countP
          Event.isCreation := by
  rw [openOrCreateNote_absent app v cfg h]
  simp only [List.countP_cons, List.countP_append, Event.isCreation]
  have h1 : ((getTemplateFile v cfg.templatePath).2).countP Event.isCreation = 0 :=
    List.countP_eq_zero.mpr (fun e he => by
      rw [(isCheckOrFolder_not e (getTemplateFile_events v cfg.templatePath e he)).1]
      exact Bool.noConfusion)
  have h2 : ((ensureFoldersExist v (dirOf (resolveFilePath cfg))).2).countP Event.isCreation = 0 :=
    List.countP_eq_zero.mpr (fun e he => by
      rw [(isCheckOrFolder_not e (ensureFoldersExist_events v _ e he)).1]
      exact Bool.noConfusion)
  rw [h1, h2]
  simp

/-! Claims C1, C2, C6 and C8 about openOrCreateNote. -/

/-- C1: openOrCreateNote opens the note at the resolved file path when a
file already exists there, and otherwise creates the note; the create
branch is taken exactly when the existence check fails. -/
theorem claim_C1 (app : App) (v : Vault) (cfg : NoteCreationConfig) :
    (v.getAbstractFileByPath (resolveFilePath cfg) = true →
       Event.openLinkText (resolveFilePath cfg) ∈ (openOrCreateNote app v cfg).2
       ∧ ∀ e ∈ (openOrCreateNote app v cfg).2, e.isCreation = false)
    ∧ ((∃ e ∈ (openOrCreateNote app v cfg).2, e.isCreation = true)
       ↔ v.getAbstractFileByPath (resolveFilePath cfg) = false) := by
  by_cases h : v.getAbstractFileByPath (resolveFilePath cfg) = true
  · refine ⟨fun _ => ?_, ?_⟩
    · rw [openOrCreateNote_found app v cfg h]
      refine ⟨by simp, ?_⟩
      intro e he
      simp only [List.mem_cons, List.not_mem_nil, or_false] at he
      rcases he with rfl | rfl <;> rfl
    · rw [openOrCreateNote_found app v cfg h, h]
      simp [Event.isCreation]
  · rw [Bool.not_eq_true] at h
    refine ⟨fun h2 => absurd (h2.symm.trans h) (by simp), ?_⟩
    refine iff_of_true ?_ h
    rcases createNote_cases (ensureFoldersExist v (dirOf (resolveFilePath cfg))).1
        (resolveFilePath cfg) (dirOf (resolveFilePath cfg)) cfg.fileName
        (getTemplaterPlugin app) (getTemplateFile v cfg.templatePath).1 with
      ⟨t, _, _, hcr⟩ | ⟨_, hcr⟩
    · refine ⟨Event.createFromTemplate t (dirOf (resolveFilePath cfg))
        (afterLastSlash cfg.fileName) true, ?_, rfl⟩
      rw [openOrCreateNote_absent app v cfg h, hcr]
      simp
    · refine ⟨Event.vaultCreate (resolveFilePath cfg) "", ?_, rfl⟩
      rw [openOrCreateNote_absent app v cfg h, hcr]
      simp

/-- C1 witness: a vault holding the resolved note, on which the open
branch is taken. -/
def vaultExisting : Vault := ⟨["daily/2024-01-01.md"], ["daily"]⟩

/-- An app without the Templater plugin. -/
def appNone : App := ⟨none⟩

/-- An app with the Templater plugin and a truthy templater object. -/
def appTemplater : App := ⟨some ⟨true⟩⟩

/-- A daily-note configuration without a template. -/
def cfgDaily : NoteCreationConfig := ⟨"2024-01-01", "daily", ""⟩

/-- A vault holding only the template file and the folder. -/
def vaultTemplate : Vault := ⟨["tpl.md"], ["daily"]⟩

/-- A daily-note configuration naming the template. -/
def cfgTemplate : NoteCreationConfig := ⟨"2024-01-01", "daily", "tpl"⟩

/-- C1 witness: at a concrete existing note, the opened-not-created
conclusion holds. -/
theorem claim_C1_witness :
    vaultExisting.getAbstractFileByPath (resolveFilePath cfgDaily) = true
    ∧ (Event.openLinkText (resolveFilePath cfgDaily)
         ∈ (openOrCreateNote appNone vaultExisting cfgDaily).2
       ∧ ∀ e ∈ (openOrCreateNote appNone vaultExisting cfgDaily).2, e.isCreation = false) :=
  ⟨by decide, (claim_C1 appNone vaultExisting cfgDaily).1 (by decide)⟩

/-- C2: one call to openOrCreateNote performs at most one note-creation
operation, never both a vault.create and a template instantiation, and
none when the file already exists. -/
theorem claim_C2 (app : App) (v : Vault) (cfg : NoteCreationConfig) :
    ((openOrCreateNote app v cfg).2.countP Event.isCreation ≤ 1)
    ∧ ¬((∃ e ∈ (openOrCreateNote app v cfg).2, e.isVaultCreate = true)
        ∧ (∃ e ∈ (openOrCreateNote app v cfg).2, e.isTemplateInstantiate = true))
    ∧ (v.getAbstractFileByPath (resolveFilePath cfg) = true →
        (openOrCreateNote app v cfg).2.countP Event.isCreation = 0) := by
  by_cases h : v.getAbstractFileByPath (resolveFilePath cfg) = true
  · rw [openOrCreateNote_found app v cfg h]
    refine ⟨by simp [Event.isCreation], ?_, fun _ => by simp [Event.isCreation]⟩
    rintro ⟨⟨e, he, hv⟩, -⟩
    simp only [List.mem_cons, List.not_mem_nil, or_false] at he
    rcases he with rfl | rfl <;> exact Bool.noConfusion hv
  · rw [Bool.not_eq_true] at h
    have hcnt := absent_countP_creation app v cfg h
    rcases createNote_cases (ensureFoldersExist v (dirOf (resolveFilePath cfg))).1
        (resolveFilePath cfg) (dirOf (resolveFilePath cfg)) cfg.fileName
        (getTemplaterPlugin app) (getTemplateFile v cfg.templatePath).1 with
      ⟨t, _, _, hcr⟩ | ⟨_, hcr⟩
    · refine ⟨?_, ?_, fun h2 => absurd (h2.symm.trans h) (by simp)⟩
      · rw [hcnt, hcr]
        simp [Event.isCreation]
      · rintro ⟨⟨e, he, hv⟩, -⟩
        have hc : e.isCreation = true := by
          cases e <;> simp_all [Event.isVaultCreate, Event.isCreation]
        have hemem := absent_creation_events app v cfg h e he hc
        rw [hcr] at hemem
        simp only [List.mem_cons, List.not_mem_nil, or_false] at hemem
        rcases hemem with rfl | rfl <;> exact Bool.noConfusion hv
    · refine ⟨?_, ?_, fun h2 => absurd (h2.symm.trans h) (by simp)⟩
      · rw [hcnt, hcr]
        simp [Event.isCreation]
      · rintro ⟨-, ⟨e, he, hv⟩⟩
        have hc : e.isCreation = true := by
          cases e <;> simp_all [Event.isTemplateInstantiate, Event.isCreation]
        have hemem := absent_creation_events app v cfg h e he hc
        rw [hcr] at hemem
        simp only [List.mem_cons, List.not_mem_nil, or_false] at hemem
        rcases hemem with rfl | rfl | rfl <;> exact Bool.noConfusion hv

/-- C2 witness: at a concrete existing note, zero creation operations. -/
theorem claim_C2_witness :
    vaultExisting.getAbstractFileByPath (resolveFilePath cfgDaily) = true
    ∧ (openOrCreateNote appNone vaultExisting cfgDaily).2.countP Event.isCreation = 0 :=
  ⟨by decide, (claim_C2 appNone vaultExisting cfgDaily).2.2 (by decide)⟩

/-- C6: the target file path is resolved as folder, slash, fileName and
the md extension when the folder setting is non-empty, and as fileName
with the md extension otherwise; the first host call of openOrCreateNote
looks that path up. -/
theorem claim_C6 (app : App) (v : Vault) (cfg : NoteCreationConfig) :
    (openOrCreateNote app v cfg).2.head?
      = some (Event.getFileByPath
          (if cfg.folder = "" then cfg.fileName ++ ".md"
           else cfg.folder ++ "/" ++ cfg.fileName ++ ".md")) := by
  by_cases h : v.getAbstractFileByPath (resolveFilePath cfg) = true
  · rw [openOrCreateNote_found app v cfg h]
    rfl
  · rw [Bool.not_eq_true] at h
    rw [openOrCreateNote_absent app v cfg h]
    rfl

/-- C8: when a file already exists at the resolved path, openOrCreateNote
leaves the vault unchanged and only performs the lookup and the open:
no createFolder, no vault.create, no template instantiation. -/
theorem claim_C8 (app : App) (v : Vault) (cfg : NoteCreationConfig)
    (h : v.getAbstractFileByPath (resolveFilePath cfg) = true) :
    openOrCreateNote app v cfg
      = (v, [Event.getFileByPath (resolveFilePath cfg),
             Event.openLinkText (resolveFilePath cfg)])
    ∧ ∀ e ∈ (openOrCreateNote app v cfg).2,
        e.isCreateFolder = false ∧ e.isVaultCreate = false
        ∧ e.isTemplateInstantiate = false := by
  refine ⟨openOrCreateNote_found app v cfg h, ?_⟩
  intro e he
  rw [openOrCreateNote_found app v cfg h] at he
  simp only [List.mem_cons, List.not_mem_nil, or_false] at he
  rcases he with rfl | rfl <;> exact ⟨rfl, rfl, rfl⟩

/-- C8 witness: the frame conclusion at a concrete existing note. -/
theorem claim_C8_witness :
    vaultExisting.getAbstractFileByPath (resolveFilePath cfgDaily) = true
    ∧ (openOrCreateNote appNone vaultExisting cfgDaily
        = (vaultExisting, [Event.getFileByPath (resolveFilePath cfgDaily),
                           Event.openLinkText (resolveFilePath cfgDaily)])
       ∧ ∀ e ∈ (openOrCreateNote appNone vaultExisting cfgDaily).2,
           e.isCreateFolder = false ∧ e.isVaultCreate = false
           ∧ e.isTemplateInstantiate = false) :=
  ⟨by decide, claim_C8 appNone vaultExisting cfgDaily (by decide)⟩

/-! Claims C3, C4 and C5 about the order of the host calls and the
creation branch. -/

/-- A bare vault with no files and no folders. -/
def vaultBare : Vault := ⟨[], []⟩

/-- A second template-branch configuration. -/
def cfgTemplate2 : NoteCreationConfig := ⟨"2024-01-02", "daily", "tpl"⟩

/-- C3 counterexample: in the template branch the trace contains a
creation event but no openLinkText call at all, so the claimed final
open-in-editor host call does not occur. -/
theorem claim_C3_counterexample :
    vaultTemplate.getAbstractFileByPath (resolveFilePath cfgTemplate) = false
    ∧ (∃ e ∈ (openOrCreateNote appTemplater vaultTemplate cfgTemplate).2, e.isCreation = true)
    ∧ (∀ e ∈ (openOrCreateNote appTemplater vaultTemplate cfgTemplate).2,
        e.isOpenLink = false) := by
  decide

/-- C3 (amended): when the target file does not exist, the trace is,
in order, the existence check, the plugin lookup, the template lookup,
the folder phase (lookups and folder creations only), and then either
the template instantiation (whose open-after flag itself requests the
open, with no separate open call) or the empty-file creation followed,
after the delay, by a separate open-in-editor call. -/
theorem claim_C3_amended (app : App) (v : Vault) (cfg : NoteCreationConfig)
    (h : v.getAbstractFileByPath (resolveFilePath cfg) = false) :
    (∀ t, (getTemplateFile v cfg.templatePath).1 = some t →
        templaterAvailable (getTemplaterPlugin app) = true →
        (openOrCreateNote app v cfg).2
          = Event.getFileByPath (resolveFilePath cfg) :: Event.pluginLookup
            :: ((getTemplateFile v cfg.templatePath).2
                ++ (ensureFoldersExist v (dirOf (resolveFilePath cfg))).2
                ++ [Event.createFromTemplate t (dirOf (resolveFilePath cfg))
                      (afterLastSlash cfg.fileName) true, Event.delayMs 300]))
    ∧ ((getTemplateFile v cfg.templatePath).1 = none
        ∨ templaterAvailable (getTemplaterPlugin app) = false →
        (openOrCreateNote app v cfg).2
          = Event.getFileByPath (resolveFilePath cfg) :: Event.pluginLookup
            :: ((getTemplateFile v cfg.templatePath).2
                ++ (ensureFoldersExist v (dirOf (resolveFilePath cfg))).2
                ++ [Event.vaultCreate (resolveFilePath cfg) "", Event.delayMs 300,
                    Event.openLinkText (resolveFilePath cfg)]))
    ∧ (∀ e ∈ (ensureFoldersExist v (dirOf (resolveFilePath cfg))).2, e.isCheckOrFolder = true)
    ∧ (∀ e ∈ (getTemplateFile v cfg.templatePath).2, e.isCheckOrFolder = true) := by
  refine ⟨?_, ?_, ensureFoldersExist_events v _, getTemplateFile_events v _⟩
  · intro t htf hta
    rw [openOrCreateNote_absent app v cfg h,
      createNote_template _ _ _ _ _ _ t htf hta]
  · intro hor
    rw [openOrCreateNote_absent app v cfg h,
      createNote_empty _ _ _ _ _ _ hor]

/-- C3 witness: the amended order at a concrete absent note without a
template. -/
theorem claim_C3_witness :
    vaultBare.getAbstractFileByPath (resolveFilePath cfgDaily) = false
    ∧ (openOrCreateNote appNone vaultBare cfgDaily).2
        = Event.getFileByPath (resolveFilePath cfgDaily) :: Event.pluginLookup
          :: ((getTemplateFile vaultBare cfgDaily.templatePath).2
              ++ (ensureFoldersExist vaultBare (dirOf (resolveFilePath cfgDaily))).2
              ++ [Event.vaultCreate (resolveFilePath cfgDaily) "", Event.delayMs 300,
                  Event.openLinkText (resolveFilePath cfgDaily)]) :=
  ⟨by decide,
   (claim_C3_amended appNone vaultBare cfgDaily (by decide)).2.1 (by decide)⟩

/-- C4 counterexample: in the template branch a file is created, yet the
trace ends with the delay and contains no openLinkText call, so no fixed
delay is executed before the newly created file is opened; the open is
requested by the instantiation itself, before the delay. -/
theorem claim_C4_counterexample :
    vaultTemplate.getAbstractFileByPath (resolveFilePath cfgTemplate2) = false
    ∧ (∃ e ∈ (openOrCreateNote appTemplater vaultTemplate cfgTemplate2).2, e.isCreation = true)
    ∧ (openOrCreateNote appTemplater vaultTemplate cfgTemplate2).2.getLast?
        = some (Event.delayMs 300)
    ∧ (∀ e ∈ (openOrCreateNote appTemplater vaultTemplate cfgTemplate2).2,
        e.isOpenLink = false) := by
  decide

/-- C4 (amended): when a new file is created in the empty-file branch,
the 300 ms delay runs after vault.create and before the open of the new
file; in the template branch the 300 ms delay runs after the template
instantiation, which itself opens the file through its open-after flag. -/
theorem claim_C4_amended (app : App) (v : Vault) (cfg : NoteCreationConfig)
    (h : v.getAbstractFileByPath (resolveFilePath cfg) = false) :
    (∀ t, (getTemplateFile v cfg.templatePath).1 = some t →
        templaterAvailable (getTemplaterPlugin app) = true →
        ∃ pre, (openOrCreateNote app v cfg).2
          = pre ++ [Event.createFromTemplate t (dirOf (resolveFilePath cfg))
                      (afterLastSlash cfg.fileName) true, Event.delayMs 300])
    ∧ ((getTemplateFile v cfg.templatePath).1 = none
        ∨ templaterAvailable (getTemplaterPlugin app) = false →
        ∃ pre, (openOrCreateNote app v cfg).2
          = pre ++ [Event.vaultCreate (resolveFilePath cfg) "", Event.delayMs 300,
                    Event.openLinkText (resolveFilePath cfg)]) := by
  constructor
  · intro t htf hta
    refine ⟨Event.getFileByPath (resolveFilePath cfg) :: Event.pluginLookup
      :: ((getTemplateFile v cfg.templatePath).2
          ++ (ensureFoldersExist v (dirOf (resolveFilePath cfg))).2), ?_⟩
    rw [(claim_C3_amended app v cfg h).1 t htf hta]
    simp
  · intro hor
    refine ⟨Event.getFileByPath (resolveFilePath cfg) :: Event.pluginLookup
      :: ((getTemplateFile v cfg.templatePath).2
          ++ (ensureFoldersExist v (dirOf (resolveFilePath cfg))).2), ?_⟩
    rw [(claim_C3_amended app v cfg h).2.1 hor]
    simp

/-- C4 witness: the empty-file tail at a concrete absent note. -/
theorem claim_C4_witness :
    vaultBare.getAbstractFileByPath (resolveFilePath cfgTemplate2) = false
    ∧ ∃ pre, (openOrCreateNote appNone vaultBare cfgTemplate2).2
        = pre ++ [Event.vaultCreate (resolveFilePath cfgTemplate2) "", Event.delayMs 300,
                  Event.openLinkText (resolveFilePath cfgTemplate2)] :=
  ⟨by decide,
   (claim_C4_amended appNone vaultBare cfgTemplate2 (by decide)).2 (by decide)⟩

/-- getTemplateFile returns a file exactly for a non-empty template path
whose md file is among the vault files, and that file is the path with
the md extension. -/
theorem getTemplateFile_eq_some_iff (v : Vault) (tp t : String) :
    (getTemplateFile v tp).1 = some t
      ↔ (tp ≠ "" ∧ (tp ++ ".md") ∈ v.files ∧ t = tp ++ ".md") := by
  unfold getTemplateFile
  by_cases h : tp = ""
  · simp [h]
  · simp only [if_neg h]
    cases hf : v.files.contains (tp ++ ".md") with
    | false =>
      have : (tp ++ ".md") ∉ v.files := by
        simp [List.contains] at hf; exact hf
      simp [hf, h, this]
    | true =>
      have hm : (tp ++ ".md") ∈ v.files := List.elem_iff.mp hf
      simp [hf, h, hm, eq_comm]

/-- getTemplateFile returns null exactly when the template path is empty
or no md file with that name is among the vault files. -/
theorem getTemplateFile_eq_none_iff (v : Vault) (tp : String) :
    (getTemplateFile v tp).1 = none ↔ (tp = "" ∨ (tp ++ ".md") ∉ v.files) := by
  unfold getTemplateFile
  by_cases h : tp = ""
  · simp [h]
  · simp only [if_neg h]
    cases hf : v.files.contains (tp ++ ".md") with
    | false =>
      have : (tp ++ ".md") ∉ v.files := by
        simp [List.contains] at hf; exact hf
      simp [hf, h, this]
    | true =>
      have hm : (tp ++ ".md") ∈ v.files := List.elem_iff.mp hf
      simp [hf, h, hm]

/-- C5: when creating a new note, the template engine is instantiated
exactly when the configured template path is non-empty, its md file is
among the vault files, and the Templater plugin with a truthy templater
object is installed; in every other case an empty file is created at the
resolved path. -/
theorem claim_C5 (app : App) (v : Vault) (cfg : NoteCreationConfig)
    (h : v.getAbstractFileByPath (resolveFilePath cfg) = false) :
    ((∃ e ∈ (openOrCreateNote app v cfg).2, e.isTemplateInstantiate = true)
      ↔ (cfg.templatePath ≠ "" ∧ (cfg.templatePath ++ ".md") ∈ v.files
         ∧ templaterAvailable (getTemplaterPlugin app) = true))
    ∧ (¬(cfg.templatePath ≠ "" ∧ (cfg.templatePath ++ ".md") ∈ v.files
         ∧ templaterAvailable (getTemplaterPlugin app) = true) →
        Event.vaultCreate (resolveFilePath cfg) "" ∈ (openOrCreateNote app v cfg).2) := by
  rcases createNote_cases (ensureFoldersExist v (dirOf (resolveFilePath cfg))).1
      (resolveFilePath cfg) (dirOf (resolveFilePath cfg)) cfg.fileName
      (getTemplaterPlugin app) (getTemplateFile v cfg.templatePath).1 with
    ⟨t, htf, hta, hcr⟩ | ⟨hor, hcr⟩
  · obtain ⟨hne, hmem, -⟩ := (getTemplateFile_eq_some_iff v cfg.templatePath t).mp htf
    constructor
    · refine iff_of_true ?_ ⟨hne, hmem, hta⟩
      refine ⟨Event.createFromTemplate t (dirOf (resolveFilePath cfg))
        (afterLastSlash cfg.fileName) true, ?_, rfl⟩
      rw [openOrCreateNote_absent app v cfg h, hcr]
      simp
    · intro hn
      exact absurd ⟨hne, hmem, hta⟩ hn
  · have hrhs : ¬(cfg.templatePath ≠ "" ∧ (cfg.templatePath ++ ".md") ∈ v.files
        ∧ templaterAvailable (getTemplaterPlugin app) = true) := by
      rcases hor with htf | hta
      · rcases (getTemplateFile_eq_none_iff v cfg.templatePath).mp htf with he | hnm
        · rintro ⟨hne, -, -⟩; exact hne he
        · rintro ⟨-, hm, -⟩; exact hnm hm
      · rintro ⟨-, -, ht⟩; rw [hta] at ht; exact Bool.noConfusion ht
    constructor
    · refine iff_of_false ?_ hrhs
      rintro ⟨e, he, hv⟩
      have hc : e.isCreation = true := by
        cases e <;> simp_all [Event.isTemplateInstantiate, Event.isCreation]
      have hemem := absent_creation_events app v cfg h e he hc
      rw [hcr] at hemem
      simp only [List.mem_cons, List.not_mem_nil, or_false] at hemem
      rcases hemem with rfl | rfl | rfl <;> exact Bool.noConfusion hv
    · intro _
      rw [openOrCreateNote_absent app v cfg h, hcr]
      simp

/-- C5 witness: at a concrete absent note with a resolvable template and
the plugin installed, the equivalence holds with both sides true. -/
theorem claim_C5_witness :
    vaultTemplate.getAbstractFileByPath (resolveFilePath cfgTemplate) = false
    ∧ ((∃ e ∈ (openOrCreateNote appTemplater vaultTemplate cfgTemplate).2,
          e.isTemplateInstantiate = true)
        ↔ (cfgTemplate.templatePath ≠ ""
           ∧ (cfgTemplate.templatePath ++ ".md") ∈ vaultTemplate.files
           ∧ templaterAvailable (getTemplaterPlugin appTemplater) = true)) :=
  ⟨by decide, (claim_C5 appTemplater vaultTemplate cfgTemplate (by decide)).1⟩

/-! Claims C7 and C10 about the click handlers, and C9 about
ensureFoldersExist. -/

/-- C7: a calendar click handler whose recovered date string is absent,
empty, or unparsable under the tried formats returns early, without
producing an openOrCreateNote call. -/
theorem claim_C7 (dayjsParse : String → String → Option DayjsDate)
    (dayjsFormat : DayjsDate → String → String) (s : Settings)
    (weekNumberTiles : List Nat) (delegateTarget : Nat) (dayTiles : List DayTile)
    (hweek : ∀ tile ∈ dayTiles, ∀ lbl, tile.abbr = some lbl →
        dayjsParse lbl "MMMM D, YYYY" = none)
    (t : String) (ht : parseDate dayjsParse t monthLabelFormats = none) :
    handleMonthLabelClick dayjsParse dayjsFormat s none = none
    ∧ handleMonthLabelClick dayjsParse dayjsFormat s (some "") = none
    ∧ handleMonthLabelClick dayjsParse dayjsFormat s (some t) = none
    ∧ handleWeekNumberClick dayjsParse dayjsFormat s weekNumberTiles delegateTarget
        dayTiles = none := by
  refine ⟨rfl, rfl, ?_, ?_⟩
  · unfold handleMonthLabelClick
    by_cases h0 : t = ""
    · simp [h0]
    · simp [h0, ht]
  · unfold handleWeekNumberClick
    cases hidx : findClickedIndex weekNumberTiles delegateTarget with
    | none => simp [hidx]
    | some wi =>
      cases hget : dayTiles.get? (wi * 7) with
      | none =>
        rw [List.get?_eq_getElem?] at hget
        simp [hidx, hget]
      | some tile =>
        have hmem : tile ∈ dayTiles := List.get?_mem hget
        rw [List.get?_eq_getElem?] at hget
        cases habbr : tile.abbr with
        | none => simp [hidx, hget, habbr]
        | some lbl =>
          simp [hidx, hget, habbr, hweek tile hmem lbl habbr]

/-- A dayjs parse oracle on which every parse is invalid. -/
def pdNone : String → String → Option DayjsDate := fun _ _ => none

/-- A concrete dayjs format oracle. -/
def fmtQ : DayjsDate → String → String := fun _ f => f

/-- Concrete settings for the handler witnesses. -/
def settingsW : Settings :=
  ⟨"ww", "wf", "wt", "mm", "mf", "mt", "qq", "qf", "qt"⟩

/-- C7 witness: with an oracle rejecting every parse, both handlers
return early at concrete inputs. -/
theorem claim_C7_witness :
    handleMonthLabelClick pdNone fmtQ settingsW none = none
    ∧ handleMonthLabelClick pdNone fmtQ settingsW (some "") = none
    ∧ handleMonthLabelClick pdNone fmtQ settingsW (some "Jan 2024") = none
    ∧ handleWeekNumberClick pdNone fmtQ settingsW [3, 4] 4
        [⟨some "January 1, 2024"⟩] = none :=
  claim_C7 pdNone fmtQ settingsW [3, 4] 4 [⟨some "January 1, 2024"⟩]
    (fun _ _ _ _ => rfl) "Jan 2024" (by decide)

/-- C9 counterexample: on the path starting with a slash, the loop drops
the leading slash, createFolder is called for the empty string and for
the second segment alone, and the path itself, its own longest
slash-separated prefix, does not exist afterwards. -/
theorem claim_C9_counterexample :
    (ensureFoldersExist vaultBare "/a").2.filterMap Event.createFolderPath = ["", "a"]
    ∧ (ensureFoldersExist vaultBare "/a").1.getAbstractFileByPath "/a" = false := by
  decide

/-- C9 (amended): ensureFoldersExist does nothing on the empty string;
for a directory path whose first slash-separated segment is non-empty,
it walks the slash-joins of the leading segments from shortest to
longest, calling createFolder exactly for those joins absent from the
starting vault, after which every such join exists. -/
theorem claim_C9 (v : Vault) (fullDir first : String) (rest : List String)
    (hsplit : splitSlash fullDir = first :: rest) (h0 : first ≠ "") :
    ensureFoldersExist v "" = (v, [])
    ∧ (ensureFoldersExist v fullDir).2.filterMap Event.createFolderPath
        = (first :: cumPaths first rest).filter (fun p => !v.getAbstractFileByPath p)
    ∧ (∀ p ∈ first :: cumPaths first rest,
        ((ensureFoldersExist v fullDir).1).getAbstractFileByPath p = true) := by
  have hne : fullDir ≠ "" := by
    intro h
    rw [h] at hsplit
    have hsplit2 : [""] = first :: rest := hsplit
    injection hsplit2 with h1 _
    exact h0 h1.symm
  refine ⟨rfl, ?_, ?_⟩
  · have heq : ensureFoldersExist v fullDir = ensureLoop v "" (first :: rest) := by
      unfold ensureFoldersExist
      rw [if_neg hne, hsplit]
    rw [heq]
    exact (ensureLoop_from_empty v first rest h0).1
  · have heq : ensureFoldersExist v fullDir = ensureLoop v "" (first :: rest) := by
      unfold ensureFoldersExist
      rw [if_neg hne, hsplit]
    rw [heq]
    exact (ensureLoop_from_empty v first rest h0).2

/-- C9 witness: the amended description at a concrete two-segment path
over the bare vault. -/
theorem claim_C9_witness :
    splitSlash "a/b" = "a" :: ["b"]
    ∧ ("a" : String) ≠ ""
    ∧ (ensureFoldersExist vaultBare "a/b").2.filterMap Event.createFolderPath
        = ("a" :: cumPaths "a" ["b"]).filter (fun p => !vaultBare.getAbstractFileByPath p)
    ∧ (∀ p ∈ "a" :: cumPaths "a" ["b"],
        ((ensureFoldersExist vaultBare "a/b").1).getAbstractFileByPath p = true) :=
  ⟨by decide, by decide,
   (claim_C9 vaultBare "a/b" "a" ["b"] (by decide) (by decide)).2.1,
   (claim_C9 vaultBare "a/b" "a" ["b"] (by decide) (by decide)).2.2⟩

/-- Every month of the calendar has at least one day. -/
theorem one_le_daysInMonth (y : Int) (m : Nat) : 1 ≤ daysInMonth y m := by
  unfold daysInMonth
  split_ifs <;> omega

/-- C10: for a parsed month with month index below 12 (a month-label
parse, whose day is 1), handleQuarterClick computes the quarter start
month as three times the floored third of the month, so the quarterly
note date is the first day of month 0, 3, 6 or 9 of the same year. -/
theorem claim_C10 (dayjsParse : String → String → Option DayjsDate)
    (dayjsFormat : DayjsDate → String → String) (s : Settings)
    (t : String) (md : DayjsDate) (ht : t ≠ "")
    (hparse : parseDate dayjsParse t navLabelFormats = some md)
    (hm : md.month < 12) (hday : md.day = 1) :
    quarterStartMonth md.month = 3 * (md.month / 3)
    ∧ (quarterStartMonth md.month = 0 ∨ quarterStartMonth md.month = 3
       ∨ quarterStartMonth md.month = 6 ∨ quarterStartMonth md.month = 9)
    ∧ handleQuarterClick dayjsParse dayjsFormat s (some t)
        = some ⟨dayjsFormat ⟨md.year, 3 * (md.month / 3), 1⟩ s.quarterlyNoteFormat,
                s.quarterlyNoteFolder, s.quarterlyNoteTemplate⟩ := by
  have hq : quarterStartMonth md.month = 3 * (md.month / 3) := by
    unfold quarterStartMonth
    omega
  refine ⟨hq, by omega, ?_⟩
  have hsm : md.setMonth (quarterStartMonth md.month)
      = ⟨md.year, 3 * (md.month / 3), md.day⟩ := by
    unfold DayjsDate.setMonth
    rw [if_pos]
    · rw [hq]
    · rw [hday]
      exact one_le_daysInMonth md.year (quarterStartMonth md.month)
  unfold handleQuarterClick
  simp only [if_neg ht, hparse, hsm, DayjsDate.startOfMonth]

/-- A parse oracle recognising one month label. -/
def pdMay : String → String → Option DayjsDate := fun text f =>
  if text = "May 2024" ∧ f = "MMM YYYY" then some ⟨2024, 4, 1⟩ else none

/-- C10 witness: the May 2024 label lands on the first of April 2024. -/
theorem claim_C10_witness :
    parseDate pdMay "May 2024" navLabelFormats = some ⟨2024, 4, 1⟩
    ∧ handleQuarterClick pdMay fmtQ settingsW (some "May 2024")
        = some ⟨fmtQ ⟨2024, 3, 1⟩ settingsW.quarterlyNoteFormat,
                settingsW.quarterlyNoteFolder, settingsW.quarterlyNoteTemplate⟩ :=
  ⟨by decide,
   (claim_C10 pdMay fmtQ settingsW "May 2024" ⟨2024, 4, 1⟩ (by decide) (by decide)
      (by decide) rfl).2.2⟩

end OZCalendar
